import Mathlib

/-!
# Verification of the dropbox-app backend's file storage subsystem

A shallow embedding of the repository's file-storage core: the upload
constants (`common/constants`), the file utility helpers
(`common/utils/file.util.ts`), the storage-key derivation and the file
lifecycle operations of `FilesService` (`files.service.ts`), the storage
router `StorageService` (`storage.service.ts`), the two storage providers
(`local-storage.provider.ts`, `s3-storage.provider.ts`), and the Prisma
soft-delete extension (`prisma/extensions/soft-delete.extension.ts`).

JavaScript effects are made explicit: fallible calls return `Except JsError`
or `Except AppError`, ambient clock and randomness are passed as arguments,
the database is a list of rows, and storage contents are a list of keys.
Infrastructure outcomes that the code only observes (an S3 command, a
filesystem operation, a database aggregation) are parameters of the
corresponding function, each parameter standing for the outcome of exactly
one call site.
-/

namespace DropboxApp

/-! ## Constants (`FILE_UPLOAD` block of `common/constants`) -/

/-- 100 MB cap for images and documents. -/
def MAX_FILE_SIZE : Nat := 100 * 1024 * 1024

/-- 500 MB cap for videos. -/
def MAX_VIDEO_SIZE : Nat := 500 * 1024 * 1024

/-- 10 GB per-user storage quota. -/
def MAX_STORAGE_QUOTA : Nat := 10 * 1024 * 1024 * 1024

/-- Maximum filename length accepted at upload. -/
def MAX_FILENAME_LENGTH : Nat := 255

/-- `FILE_UPLOAD.ALLOWED_MIME_TYPES`. -/
def ALLOWED_MIME_TYPES : List String :=
  [ "image/jpeg", "image/png", "image/gif", "image/webp",
    "video/mp4", "video/mpeg", "video/quicktime", "video/x-msvideo",
    "video/x-matroska", "video/webm", "video/x-flv", "video/3gpp",
    "video/3gpp2",
    "application/pdf", "application/msword",
    "application/vnd.openxmlformats-officedocument.wordprocessingml.document",
    "application/vnd.ms-excel",
    "application/vnd.openxmlformats-officedocument.spreadsheetml.sheet",
    "text/plain", "text/csv",
    "application/zip" ]

/-- `FILE_UPLOAD.DOCUMENT_MIME_TYPES`. -/
def DOCUMENT_MIME_TYPES : List String :=
  [ "application/pdf", "application/msword",
    "application/vnd.openxmlformats-officedocument.wordprocessingml.document",
    "application/vnd.ms-excel",
    "application/vnd.openxmlformats-officedocument.spreadsheetml.sheet",
    "text/plain", "text/csv" ]

/-! ## File utility helpers (`common/utils/file.util.ts`)

JavaScript string primitives are modelled on the character list of the
Lean string (JavaScript indexes UTF-16 units; the inputs of interest are
ASCII, where the two coincide), keeping every definition kernel-reducible. -/

/-- JavaScript `s.startsWith(p)`. -/
def strStartsWith (s p : String) : Bool := p.data.isPrefixOf s.data

/-- JavaScript `s.toLowerCase()`. -/
def strToLower (s : String) : String := String.mk (s.data.map Char.toLower)

/-- `isImageMimeType`: mimeType.startsWith('image/'). -/
def isImageMimeType (m : String) : Bool := strStartsWith m "image/"

/-- `isVideoMimeType`: mimeType.startsWith('video/'). -/
def isVideoMimeType (m : String) : Bool := strStartsWith m "video/"

/-- `isDocumentMimeType`: membership in `DOCUMENT_MIME_TYPES`. -/
def isDocumentMimeType (m : String) : Bool := DOCUMENT_MIME_TYPES.contains m

/-- The file type category returned by `getFileTypeCategory`. -/
inductive FileCategory
  | video | image | document | archive | other
deriving Repr, DecidableEq

/-- `getFileTypeCategory`, in the source's test order (video, image,
document, then the single archive type). -/
def getFileTypeCategory (m : String) : FileCategory :=
  if isVideoMimeType m then .video
  else if isImageMimeType m then .image
  else if isDocumentMimeType m then .document
  else if m == "application/zip" then .archive
  else .other

/-- `getMaxFileSize`: videos get `MAX_VIDEO_SIZE`, everything else
`MAX_FILE_SIZE`. -/
def getMaxFileSize (m : String) : Nat :=
  if isVideoMimeType m then MAX_VIDEO_SIZE else MAX_FILE_SIZE

/-- Index of the last '.' in a character list (accumulator-style scan),
used to model Node's `path.extname`. -/
def lastDotIndexAux : List Char → Nat → Option Nat → Option Nat
  | [], _, acc => acc
  | c :: rest, i, acc =>
      lastDotIndexAux rest (i + 1) (if c = '.' then some i else acc)

/-- Index of the last '.' in a string's characters, if any. -/
def lastDotIndex (s : String) : Option Nat := lastDotIndexAux s.data 0 none

/-- Node `path.basename` (posix) for filename-shaped inputs: the portion
after the last '/'. -/
def pathBasename (s : String) : String :=
  String.mk (s.data.reverse.takeWhile (fun c => c != '/')).reverse

/-- Node `path.extname` (posix): from the last '.' of the basename to the
end; empty when the basename has no '.' or its only '.' is its first
character. -/
def pathExtname (s : String) : String :=
  let base := pathBasename s
  match lastDotIndex base with
  | none => ""
  | some 0 => ""
  | some i => String.mk (base.data.drop i)

/-- `getFileExtension`: `path.extname(filename).toLowerCase()`. -/
def getFileExtension (filename : String) : String :=
  strToLower (pathExtname filename)

/-! ## Storage key derivation (`FilesService.generateStorageKey`) -/

/-- One reading of the ambient wall clock at the moment of an upload:
`Date.now()` in milliseconds, together with the local-time year and
one-based month that `new Date()` reports at the same instant (the source
reads the clock twice inside one synchronous function; both reads observe
the same instant). -/
structure Clock where
  nowMs : Nat
  year : Nat
  month : Nat
deriving Repr, DecidableEq

/-- Character class of the sanitizer regex `[^a-zA-Z0-9.-]` (negated):
ASCII alphanumerics, '.' and '-' are kept, everything else is replaced. -/
def isAllowedFilenameChar (c : Char) : Bool :=
  c.isAlphanum || c = '.' || c = '-'

/-- `originalFilename.replace(/[^a-zA-Z0-9.-]/g, '_')`. -/
def sanitizeFilename (name : String) : String :=
  String.mk (name.data.map fun c => if isAllowedFilenameChar c then c else '_')

/-- JavaScript `.substring(0, 50)` (modelled on characters). -/
def jsSubstring50 (s : String) : String := String.mk (s.data.take 50)

/-- JavaScript `String(n).padStart(2, '0')`. -/
def padStart2 (s : String) : String :=
  if s.length ≥ 2 then s else String.mk (List.replicate (2 - s.length) '0') ++ s

/-- `FilesService.generateStorageKey`, with the clock reading and the value
of `Math.round(Math.random() * 1e9)` passed explicitly. -/
def generateStorageKey (c : Clock) (random : Nat) (userId originalFilename : String) :
    String :=
  let timestamp := c.nowMs
  let ext := getFileExtension originalFilename
  let sanitizedFilename := jsSubstring50 (sanitizeFilename originalFilename)
  "users/" ++ userId ++ "/" ++ toString c.year ++ "/" ++ padStart2 (toString c.month)
    ++ "/" ++ toString timestamp ++ "-" ++ toString random ++ "-" ++ sanitizedFilename
    ++ ext

/-! ## Errors -/

/-- A thrown JavaScript error as the code observes it: a `name` (used by
`S3StorageProvider.fileExists` to recognize 'NotFound') and a `message`. -/
structure JsError where
  name : String := "Error"
  message : String := ""
deriving Repr, DecidableEq

/-- An `AppException` from `common/exceptions/business.exception.ts`:
an error code, a message and an HTTP status (details payload omitted; no
claim mentions it). -/
structure AppError where
  code : String
  message : String
  status : Nat
deriving Repr, DecidableEq

namespace BusinessException

/-- `BusinessException.fileNotFound` (HTTP 404). -/
def fileNotFound (_fileId : String) : AppError :=
  ⟨"FILE_NOT_FOUND", "File not found", 404⟩

/-- `BusinessException.fileNotOwner` (HTTP 403, Forbidden). -/
def fileNotOwner (_fileId _userId : String) : AppError :=
  ⟨"FILE_NOT_OWNER", "You can only delete your own files", 403⟩

/-- `BusinessException.fileUploadFailed` (HTTP 500); the reason the caller
passed is carried in the message slot. -/
def fileUploadFailed (reason : String) : AppError :=
  ⟨"FILE_UPLOAD_FAILED", reason, 500⟩

/-- `BusinessException.fileDeleteFailed` (HTTP 500). -/
def fileDeleteFailed (reason : String) : AppError :=
  ⟨"FILE_DELETE_FAILED", reason, 500⟩

/-- Modelled from the spec: `FilesService.validateFile` calls
`BusinessException.fileTypeNotAllowed`, a factory missing from the provided
`business.exception.ts`; per spec section 7 it is a typed, caller-fixable
validation error (the logger's error code is FILE_TYPE_NOT_ALLOWED). -/
def fileTypeNotAllowed (_mimeType : String) : AppError :=
  ⟨"FILE_TYPE_NOT_ALLOWED", "File type is not allowed", 400⟩

/-- Modelled from the spec: `FilesService.validateFile` calls
`BusinessException.fileTooLarge`, a factory missing from the provided
`business.exception.ts`; per spec section 7 it is a typed, caller-fixable
validation error (the logger's error code is FILE_TOO_LARGE). -/
def fileTooLarge (reason : String) : AppError :=
  ⟨"FILE_TOO_LARGE", reason, 400⟩

end BusinessException

/-! ## Data model -/

/-- A row of the `File` table: the Prisma `File` model's attributes,
with timestamps as naturals and the soft-delete marker as an optional
timestamp (`none` = active, SQL NULL). -/
structure FileRecord where
  id : String
  name : String
  size : Nat
  mimeType : String
  path : String
  userId : String
  createdAt : Nat
  deletedAt : Option Nat := none
deriving Repr, DecidableEq

/-- The `File` table. -/
abbrev FileTable := List FileRecord

/-- The uploaded file as multer hands it to `FilesService.uploadFile`. -/
structure MulterFile where
  originalname : String
  mimetype : String
  size : Nat
deriving Repr, DecidableEq

/-! ## Prisma query layer and the soft-delete extension
(`prisma/extensions/soft-delete.extension.ts`) -/

/-- The Prisma operations the extension inspects, plus `create`. -/
inductive PrismaOp
  | findUnique | findFirst | findMany | count | aggregate
  | create | update | updateMany | delete | deleteMany
deriving Repr, DecidableEq

/-- A condition on the `mimeType` column, covering the three filter shapes
`FilesService.getUserFiles` builds: equality, `startsWith`, and `in`. -/
inductive MimeCond
  | eq (value : String)
  | startsWith (s : String)
  | inList (values : List String)
deriving Repr, DecidableEq

/-- An `args.where` object for the `File` model. Each field is `none` when
the corresponding key is absent from the JavaScript object. For
`deletedAt` the outer option is key presence and the inner option is the
stored value (`none` = the literal null), so that the extension's
`args.where[SOFT_DELETE_FIELD] === undefined` test is key absence. -/
structure FileWhere where
  id : Option String := none
  userId : Option String := none
  mimeType : Option MimeCond := none
  deletedAt : Option (Option Nat) := none
deriving Repr, DecidableEq

/-- Query arguments: the optional `where` object, and the optional
`data` object (only its `deletedAt` field is ever set by the extension,
to the current timestamp, or to null by `restore`). -/
structure FileArgs where
  whereArg : Option FileWhere := none
  dataDeletedAt : Option (Option Nat) := none
deriving Repr, DecidableEq

/-- `SOFT_DELETE_MODELS` from the extension. -/
def SOFT_DELETE_MODELS : List String := ["User", "File"]

/-- The read operations the extension injects the marker filter into. -/
def READ_OPS : List PrismaOp :=
  [.findUnique, .findFirst, .findMany, .count, .aggregate]

/-- The call that `$allOperations` causes Prisma to execute: the operation
actually run by the `query` continuation with the (possibly mutated)
`args`, together with the final value of the handler's local `operation`
variable. In Prisma's client-extension API the `query` function passed to
the handler is already bound to the intercepted operation; reassigning the
destructured `operation` parameter does not redirect it (unlike the legacy
`$use` middleware, where `params.action` was read back by the engine). -/
structure QueryCall where
  executedOp : PrismaOp
  args : FileArgs
  finalOperationVar : PrismaOp
deriving Repr, DecidableEq

/-- The `$allOperations` handler of the soft-delete extension, translated
statement by statement. `now` is the `new Date()` value the handler would
store into `args.data`. For soft-delete models it (1) injects
`deletedAt: null` into the `where` of read operations when the key is
absent, and (2) on `delete`/`deleteMany` sets `args.data` and reassigns the
local `operation` variable — after which it returns `query(args)`, which
executes the intercepted operation (see `QueryCall`). -/
def softDeleteAllOperations (now : Nat) (model : Option String)
    (operation : PrismaOp) (args : FileArgs) : QueryCall :=
  match model with
  | some m =>
    if SOFT_DELETE_MODELS.contains m then
      let args1 :=
        if READ_OPS.contains operation then
          let w := args.whereArg.getD {}
          if w.deletedAt = none then
            { args with whereArg := some { w with deletedAt := some none } }
          else
            { args with whereArg := some w }
        else args
      let step2 :=
        if operation = .delete then
          (PrismaOp.update, { args1 with dataDeletedAt := some (some now) })
        else if operation = .deleteMany then
          (PrismaOp.updateMany, { args1 with dataDeletedAt := some (some now) })
        else (operation, args1)
      ⟨operation, step2.2, step2.1⟩
    else ⟨operation, args, operation⟩
  | none => ⟨operation, args, operation⟩

/-- Whether a row satisfies a `where` object (absent keys match
everything; a present `deletedAt` key compares against the stored
marker, with `some none` meaning `deletedAt: null`). -/
def fileWhereMatches (w : FileWhere) (r : FileRecord) : Bool :=
  (match w.id with | none => true | some i => r.id == i) &&
  (match w.userId with | none => true | some u => r.userId == u) &&
  (match w.mimeType with
   | none => true
   | some (.eq v) => r.mimeType == v
   | some (.startsWith p) => strStartsWith r.mimeType p
   | some (.inList vs) => vs.contains r.mimeType) &&
  (match w.deletedAt with | none => true | some d => r.deletedAt == d)

/-- `findMany`: the rows matching the where object, in table order. -/
def runFindMany (w : FileWhere) (db : FileTable) : List FileRecord :=
  db.filter (fileWhereMatches w)

/-- `findUnique`: the first matching row, if any. -/
def runFindUnique (w : FileWhere) (db : FileTable) : Option FileRecord :=
  (db.filter (fileWhereMatches w)).head?

/-- `aggregate` with `_sum: { size: true }`: total size of the matching
rows (Prisma reports null for an empty match set and the service applies
`|| 0`, which coincides with the empty sum). -/
def runAggregateSumSize (w : FileWhere) (db : FileTable) : Nat :=
  ((db.filter (fileWhereMatches w)).map (·.size)).sum

/-- Physical row removal: what Prisma's `delete`/`deleteMany` do to the
table. -/
def runDeletePhysical (w : FileWhere) (db : FileTable) : FileTable :=
  db.filter fun r => !(fileWhereMatches w r)

/-- `update`/`updateMany` whose data sets the `deletedAt` column. -/
def runUpdateDeletedAt (w : FileWhere) (v : Option Nat) (db : FileTable) : FileTable :=
  db.map fun r => if fileWhereMatches w r then { r with deletedAt := v } else r

/-- The validation error the Prisma client raises when the arguments carry
a key the executed operation does not accept (the message stands for the
client's 'Unknown argument `data`' report). -/
def prismaUnknownArgError : JsError :=
  ⟨"PrismaClientValidationError", "Unknown argument data"⟩

/-- Effect of a dispatched call on the `File` table. Reads leave the table
unchanged. The client first validates the arguments against the executed
operation: `delete`/`deleteMany` accept no `data` argument, so a dispatch
still carrying the extension's stray `data` is rejected with a validation
error before the table is touched; a clean `delete`/`deleteMany` is
Prisma's physical row removal, and `update`/`updateMany` whose data sets
`deletedAt` mark the matching rows. -/
def runQueryCall (qc : QueryCall) (db : FileTable) : Except JsError FileTable :=
  match qc.executedOp with
  | .delete =>
    match qc.args.dataDeletedAt with
    | some _ => .error prismaUnknownArgError
    | none => .ok (runDeletePhysical (qc.args.whereArg.getD {}) db)
  | .deleteMany =>
    match qc.args.dataDeletedAt with
    | some _ => .error prismaUnknownArgError
    | none => .ok (runDeletePhysical (qc.args.whereArg.getD {}) db)
  | .update =>
    .ok (runUpdateDeletedAt (qc.args.whereArg.getD {}) (qc.args.dataDeletedAt.getD none) db)
  | .updateMany =>
    .ok (runUpdateDeletedAt (qc.args.whereArg.getD {}) (qc.args.dataDeletedAt.getD none) db)
  | _ => .ok db

/-- The extension's `findManyWithDeleted` model method: it removes the
`deletedAt` key from the caller's `where` and then calls `findMany` on
`Prisma.getExtensionContext(this)` — the extended client's delegate, so the
call re-enters `softDeleteAllOperations`. -/
def findManyWithDeleted (now : Nat) (args : FileArgs) : QueryCall :=
  let originalWhere := args.whereArg.getD {}
  let originalWhere := { originalWhere with deletedAt := none }
  softDeleteAllOperations now (some "File") .findMany
    { args with whereArg := some originalWhere }

/-- Rows returned by `findManyWithDeleted` on a given table. -/
def runFindManyWithDeleted (now : Nat) (args : FileArgs) (db : FileTable) :
    List FileRecord :=
  runFindMany ((findManyWithDeleted now args).args.whereArg.getD {}) db

/-! ## Storage providers and the storage router (`storage.service.ts`,
`local-storage.provider.ts`, `s3-storage.provider.ts`) -/

/-- The two provider kinds ('local' / 's3' in the source). -/
inductive StorageType
  | localFs | s3
deriving Repr, DecidableEq

/-- The `IFileUploadResult` returned by `StorageService.uploadFile`. -/
structure UploadResult where
  key : String
  url : String
  storageType : StorageType
deriving Repr

/-- The environment configuration `StorageService.determineStorageType`
reads; a missing variable is the empty string (both are falsy in the
source's boolean coercion). -/
structure StorageConfig where
  storageTypeVar : String := ""
  bucketName : String := ""
  region : String := ""
  accessKeyId : String := ""
  secretAccessKey : String := ""
deriving Repr, DecidableEq

/-- `StorageService.hasS3Configuration`: all four credentials truthy
(the empty string standing for an unset or empty, hence falsy, value). -/
def hasS3Configuration (c : StorageConfig) : Bool :=
  !(c.bucketName == "") && !(c.region == "") &&
  !(c.accessKeyId == "") && !(c.secretAccessKey == "")

/-- `StorageService.determineStorageType`: s3 only when requested and fully
configured, otherwise local. -/
def determineStorageType (c : StorageConfig) : StorageType :=
  if c.storageTypeVar == "s3" && hasS3Configuration c then .s3 else .localFs

/-- `S3StorageProvider.deleteFile`: sends a `DeleteObjectCommand` (its
outcome is the `send` parameter) and returns true on success; the
catch-all converts any thrown error into a false return, so the function
itself never throws — hence the `.ok` on both branches. -/
def s3DeleteFile (send : Except JsError Unit) : Except JsError Bool :=
  match send with
  | .ok _ => .ok true
  | .error _ => .ok false

/-- Outcome of one `StorageService.uploadFile` dispatch: the value returned
or error propagated, plus how many times the catch block invoked
`this.localProvider.uploadFile` (instrumentation for the retry count; the
source contains exactly one such call site, executed at most once). -/
structure UploadDispatch where
  result : Except JsError UploadResult
  fallbackCalls : Nat
deriving Repr

/-- `StorageService.uploadFile`. `providerUpload` is the outcome of
`this.provider.uploadFile(file, key)` (the provider selected at startup,
whose `getStorageType()` equals `storageType` by construction), and
`localUpload` the outcome of `this.localProvider.uploadFile(file, key)`
should the catch block run it. On a provider error with S3 active the
upload is re-attempted on the local provider and a success is reported
with `storageType` 'local'; with the local provider active the error
propagates unchanged. -/
def storageUploadFile (storageType : StorageType)
    (providerUpload : Except JsError String)
    (localUpload : Except JsError String) (key : String) : UploadDispatch :=
  match providerUpload with
  | .ok url => ⟨.ok ⟨key, url, storageType⟩, 0⟩
  | .error e =>
    if storageType = .s3 then
      match localUpload with
      | .ok url => ⟨.ok ⟨key, url, .localFs⟩, 1⟩
      | .error e2 => ⟨.error e2, 1⟩
    else ⟨.error e, 0⟩

/-- `LocalStorageProvider.deleteFile` over storage contents modelled as the
list of present keys: if the key exists it is unlinked and true returned,
otherwise false; `fsFail` injects a filesystem error (`fs.access` or
`fs.unlink` throwing), which the provider's catch converts into a false
return with the storage untouched — the provider never throws. -/
def localProviderDelete (fsFail : Option JsError) (storage : List String)
    (key : String) : Bool × List String :=
  match fsFail with
  | some _ => (false, storage)
  | none =>
    if storage.contains key then (true, storage.erase key) else (false, storage)

/-- `StorageService.deleteFile` with the local provider active:
`this.provider` is the local provider, the `!deleted && s3` fallback branch
is not taken, and the service-level catch (which would also return false)
is unreachable because the provider never throws. -/
def serviceDeleteLocal (fsFail : Option JsError) (storage : List String)
    (key : String) : Bool × List String :=
  localProviderDelete fsFail storage key

/-! ## FilesService (`files.service.ts`) -/

/-- The mutable world a lifecycle operation touches: the `File` table and
the storage contents (keys of the objects present). -/
structure SysState where
  db : FileTable
  storage : List String
deriving Repr, DecidableEq

/-- `FilesService.validateFile`: allow-listed MIME type, per-category size
cap, and filename length, in the source's order; each failure is the
corresponding typed error. (JavaScript `.length` counts UTF-16 units,
modelled as characters.) -/
def validateFile (file : MulterFile) : Except AppError Unit :=
  if !(ALLOWED_MIME_TYPES.contains file.mimetype) then
    .error (BusinessException.fileTypeNotAllowed file.mimetype)
  else if file.size > getMaxFileSize file.mimetype then
    .error (BusinessException.fileTooLarge "File size exceeds maximum allowed size")
  else if file.originalname.length > MAX_FILENAME_LENGTH then
    .error (BusinessException.fileUploadFailed "File name is too long")
  else .ok ()

/-- The aggregation `checkUserStorageQuota` issues:
`prisma.file.aggregate` with `where: { userId }` and `_sum: { size }`,
routed through the extended client, so the soft-delete extension injects
`deletedAt: null` and only active rows are summed. -/
def userActiveBytes (db : FileTable) (userId : String) : Nat :=
  let qc := softDeleteAllOperations 0 (some "File") .aggregate
    { whereArg := some { userId := some userId } }
  runAggregateSumSize (qc.args.whereArg.getD {}) db

/-- `FilesService.checkUserStorageQuota`. `aggregateFailure` injects an
infrastructure failure of the aggregation query itself. The catch re-throws
a `BusinessException` (the quota rejection raised inside the try) but only
logs any other error, so an aggregation failure lets the upload proceed.
The interpolated GB figures of the real message are elided. -/
def checkUserStorageQuota (aggregateFailure : Option JsError) (db : FileTable)
    (userId : String) (newFileSize : Nat) : Except AppError Unit :=
  match aggregateFailure with
  | some _ => .ok ()
  | none =>
    let currentTotalSize := userActiveBytes db userId
    if currentTotalSize + newFileSize > MAX_STORAGE_QUOTA then
      .error (BusinessException.fileUploadFailed "Storage quota exceeded")
    else .ok ()

/-- Per-call environment of `FilesService.uploadFile`: the clock and random
draw feeding `generateStorageKey`, the id the database assigns to the new
row, and the infrastructure outcomes of the three fallible calls —
the quota aggregation, `storageService.uploadFile` (after its internal
fallback; `none` means some provider accepted the write), and
`prisma.file.create`. -/
structure UploadEnv where
  clock : Clock
  random : Nat
  newFileId : String := "generated-id"
  aggregateFailure : Option JsError := none
  storageFailure : Option JsError := none
  createFailure : Option JsError := none

/-- `FilesService.uploadFile`: validate, quota-check, derive the storage
key, write to storage, then create the metadata row. The catch block logs,
re-throws a `BusinessException`/`BadRequestException` unchanged and wraps
anything else in `fileUploadFailed`; it performs no storage deletion (its
'Storage service handles cleanup' comment has no corresponding call), so a
metadata-create failure leaves the just-written object in storage. The
locator `uploadResult.url` is modelled as the storage key itself (the
providers return a path or URL embedding the key; its exact shape is not
load-bearing for any claim). -/
def filesUploadFile (env : UploadEnv) (state : SysState) (file : MulterFile)
    (userId : String) : Except AppError FileRecord × SysState :=
  match validateFile file with
  | .error e => (.error e, state)
  | .ok _ =>
  match checkUserStorageQuota env.aggregateFailure state.db userId file.size with
  | .error e => (.error e, state)
  | .ok _ =>
  let storageKey := generateStorageKey env.clock env.random userId file.originalname
  match env.storageFailure with
  | some e => (.error (BusinessException.fileUploadFailed e.message), state)
  | none =>
    let state1 := { state with storage := state.storage ++ [storageKey] }
    match env.createFailure with
    | some e => (.error (BusinessException.fileUploadFailed e.message), state1)
    | none =>
      let record : FileRecord :=
        { id := env.newFileId, name := file.originalname, size := file.size,
          mimeType := file.mimetype, path := storageKey, userId := userId,
          createdAt := env.clock.nowMs, deletedAt := none }
      (.ok record, { state1 with db := state1.db ++ [record] })

/-- JavaScript `s.includes(sub)` on character lists. -/
def listIncludes (sub : List Char) : List Char → Bool
  | [] => sub.isPrefixOf []
  | c :: rest => sub.isPrefixOf (c :: rest) || listIncludes sub rest

/-- JavaScript `s.includes(sub)`. -/
def strIncludes (s sub : String) : Bool := listIncludes sub.data s.data

/-- Everything after the first occurrence of `pat` (used to strip the URL
scheme); the input unchanged when `pat` does not occur. -/
def dropThroughSub (pat : List Char) : List Char → List Char
  | [] => []
  | c :: rest =>
      if pat.isPrefixOf (c :: rest) then (c :: rest).drop pat.length
      else dropThroughSub pat rest

/-- `FilesService.extractStorageKey`: an S3/CloudFront URL is reduced to
`url.pathname.substring(1)` (modelled for URLs without query or fragment:
the scheme and host are stripped, then the pathname's leading slash), any
other path is returned unchanged. -/
def extractStorageKey (path : String) : String :=
  if strIncludes path "s3.amazonaws.com" || strIncludes path "cloudfront.net" then
    let afterScheme := dropThroughSub "://".data path.data
    String.mk ((afterScheme.dropWhile fun c => c != '/').drop 1)
  else path

/-- `FilesService.getFileById`: `findUnique` on the id through the extended
client (the extension injects `deletedAt: null`, so only an active row is
found), then `fileNotFound` when absent and `fileNotOwner` when owned by
someone else. -/
def filesGetFileById (now : Nat) (state : SysState) (fileId userId : String) :
    Except AppError FileRecord :=
  let qc := softDeleteAllOperations now (some "File") .findUnique
    { whereArg := some { id := some fileId } }
  match runFindUnique (qc.args.whereArg.getD {}) state.db with
  | none => .error (BusinessException.fileNotFound fileId)
  | some file =>
    if file.userId ≠ userId then .error (BusinessException.fileNotOwner fileId userId)
    else .ok file

/-- `FilesService.deleteFile` over the local-provider storage stack
(`fsFail` injects a filesystem error into the provider's delete): look the
row up (active-only, as the extension injects `deletedAt: null`), raise
`fileNotFound` / `fileNotOwner` before any side effect, then delete from
storage — a false return (absent object or swallowed storage error) is
only logged — and finally issue `prisma.file.delete` through the extended
client, whose dispatched call `runQueryCall` applies to the table. A throw
from that call lands in the catch block, which wraps its message in the
typed `fileDeleteFailed` error; the storage deletion has already happened
by then, so the storage mutation survives while the table is unchanged. -/
def filesDeleteFile (fsFail : Option JsError) (now : Nat) (state : SysState)
    (fileId userId : String) : Except AppError Unit × SysState :=
  let qc := softDeleteAllOperations now (some "File") .findUnique
    { whereArg := some { id := some fileId } }
  match runFindUnique (qc.args.whereArg.getD {}) state.db with
  | none => (.error (BusinessException.fileNotFound fileId), state)
  | some file =>
    if file.userId ≠ userId then
      (.error (BusinessException.fileNotOwner fileId userId), state)
    else
      let storageKey := extractStorageKey file.path
      let del := serviceDeleteLocal fsFail state.storage storageKey
      let dc := softDeleteAllOperations now (some "File") .delete
        { whereArg := some { id := some fileId } }
      match runQueryCall dc state.db with
      | .error e2 =>
          (.error (BusinessException.fileDeleteFailed e2.message),
           { db := state.db, storage := del.2 })
      | .ok db2 => (.ok (), { db := db2, storage := del.2 })

/-- The `where` object `FilesService.getUserFiles` builds: always the
caller's id; a recognized lowercased type filter adds the matching
mimeType condition, an unrecognized one falls through the switch and adds
nothing. -/
def buildGetUserFilesWhere (userId : String) (fileType : Option String) : FileWhere :=
  let w : FileWhere := { userId := some userId }
  match fileType with
  | none => w
  | some ft =>
    if strToLower ft = "video" then { w with mimeType := some (.startsWith "video/") }
    else if strToLower ft = "image" then { w with mimeType := some (.startsWith "image/") }
    else if strToLower ft = "document" then { w with mimeType := some (.inList DOCUMENT_MIME_TYPES) }
    else if strToLower ft = "archive" then { w with mimeType := some (.eq "application/zip") }
    else w

/-- Comparison of `orderBy: { createdAt: 'desc' }`. -/
def createdAtDesc (a b : FileRecord) : Bool := Nat.ble b.createdAt a.createdAt

/-- `FilesService.getUserFiles`: `findMany` with the built `where` (the
extension injects `deletedAt: null`) ordered by `createdAt` descending. -/
def filesGetUserFiles (now : Nat) (db : FileTable) (userId : String)
    (fileType : Option String) : List FileRecord :=
  let qc := softDeleteAllOperations now (some "File") .findMany
    { whereArg := some (buildGetUserFilesWhere userId fileType) }
  (runFindMany (qc.args.whereArg.getD {}) db).mergeSort createdAtDesc

/-! ## Sample rows and dispatch lemmas -/

/-- An active file row owned by u1. -/
def rowA : FileRecord :=
  ⟨"f1", "a.txt", 10, "text/plain", "p1", "u1", 100, none⟩

/-- A tombstoned file row owned by u1 (soft-delete marker set). -/
def rowB : FileRecord :=
  ⟨"f2", "b.txt", 20, "text/plain", "p2", "u1", 200, some 5⟩

/-- On a `findUnique` by id the extension injects `deletedAt: null` and the
original read operation is executed. -/
theorem softDelete_findUnique_dispatch (now : Nat) (fileId : String) :
    softDeleteAllOperations now (some "File") .findUnique
        { whereArg := some { id := some fileId } }
      = ⟨.findUnique, { whereArg := some { id := some fileId, deletedAt := some none } },
         .findUnique⟩ := rfl

/-- On a `delete` the extension attaches `data: deletedAt = now` and
reassigns its local `operation` variable to update, but the executed
operation is still the intercepted `delete`. -/
theorem softDelete_delete_dispatch (now : Nat) (fileId : String) :
    softDeleteAllOperations now (some "File") .delete
        { whereArg := some { id := some fileId } }
      = ⟨.delete, { whereArg := some { id := some fileId }, dataDeletedAt := some (some now) },
         .update⟩ := rfl

/-- Marker-filter injection on a `findMany` whose `where` object lacks the
`deletedAt` key. -/
theorem softDelete_findMany_dispatch (now : Nat) (w : FileWhere)
    (hw : w.deletedAt = none) :
    softDeleteAllOperations now (some "File") .findMany { whereArg := some w }
      = ⟨.findMany, { whereArg := some { w with deletedAt := some none } }, .findMany⟩ := by
  unfold softDeleteAllOperations
  simp [SOFT_DELETE_MODELS, READ_OPS, hw]

/-! ## Claims -/

/-- C1: the claim says a metadata-create failure after a successful storage
write makes `uploadFile` delete the just-written object before surfacing
the error. The code's catch block only logs and rethrows — there is no
`storageService.deleteFile` call — so on a concrete upload of notes.txt
(valid type, size and name, empty table so the quota passes) whose
`prisma.file.create` throws, the wrapped error is surfaced while the
derived storage key is still present in storage: the orphan remains. -/
theorem c1_upload_rollback_missing :
    (filesUploadFile
        { clock := ⟨1700000000000, 2023, 11⟩, random := 42,
          createFailure := some ⟨"Error", "db down"⟩ }
        ⟨[], []⟩ ⟨"notes.txt", "text/plain", 10⟩ "u1").1
      = .error (BusinessException.fileUploadFailed "db down") ∧
    (filesUploadFile
        { clock := ⟨1700000000000, 2023, 11⟩, random := 42,
          createFailure := some ⟨"Error", "db down"⟩ }
        ⟨[], []⟩ ⟨"notes.txt", "text/plain", 10⟩ "u1").2
      = ⟨[], [generateStorageKey ⟨1700000000000, 2023, 11⟩ 42 "u1" "notes.txt"]⟩ :=
  ⟨rfl, rfl⟩

/-- C2: the claim says a single-record delete on a soft-delete model is
performed as an update setting `deletedAt`. Intercepting `delete` on File
for row f1, the extension computes the intended rewrite only into its dead
local variable (`finalOperationVar = update`) and a stray `data` argument,
while the operation actually executed by the `query` continuation is still
the physical `delete`; running the dispatched call is rejected outright by
the client's argument validation, so no update setting the marker — and no
marked record — ever materializes. -/
theorem c2_soft_delete_rewrite_ineffective :
    (softDeleteAllOperations 1000 (some "File") .delete
        { whereArg := some { id := some "f1" } }).executedOp = PrismaOp.delete ∧
    (softDeleteAllOperations 1000 (some "File") .delete
        { whereArg := some { id := some "f1" } }).finalOperationVar = PrismaOp.update ∧
    runQueryCall
        (softDeleteAllOperations 1000 (some "File") .delete
          { whereArg := some { id := some "f1" } }) [rowA]
      = .error prismaUnknownArgError :=
  ⟨rfl, rfl, rfl⟩

/-- C3: the claim says `findManyWithDeleted` returns active and tombstoned
rows alike, with no `deletedAt` restriction in the executed query. The
method strips the caller's `deletedAt` key, but the `findMany` it then
issues on the extension context re-enters `$allOperations`, which sees the
key absent and injects `deletedAt: null`: on a table with an active and a
tombstoned row for u1, only the active row comes back even though the
tombstoned row satisfies the caller's only condition (`userId = u1`). -/
theorem c3_findManyWithDeleted_filters_tombstones :
    ((findManyWithDeleted 0 { whereArg := some { userId := some "u1" } }).args.whereArg.getD
        {}).deletedAt = some none ∧
    runFindManyWithDeleted 0 { whereArg := some { userId := some "u1" } } [rowA, rowB]
      = [rowA] ∧
    fileWhereMatches { userId := some "u1" } rowB = true :=
  ⟨rfl, rfl, rfl⟩

/-- C4: deleting an existing active file owned by the caller while the
storage deletion throws a genuine error ends with a typed deletion-failure
error and the metadata row (hence its stored locator) untouched, exactly
as the claim states — the whole state comes back unchanged. The route
differs from the claim's narrative, though: the storage error itself is
swallowed (provider and storage service both catch and return false, so
the storage state is also left as it was), and the surfaced error comes
from the database step, whose `delete` dispatch still carries the
soft-delete extension's stray `data` argument and is rejected by the
client; the catch wraps that rejection as `fileDeleteFailed` before the
row could be removed. -/
theorem c4_storage_error_preserves_row (e : JsError) (now : Nat) (state : SysState)
    (fileId uid : String) (file : FileRecord)
    (hfind : runFindUnique { id := some fileId, deletedAt := some none } state.db
      = some file)
    (howner : file.userId = uid) :
    filesDeleteFile (some e) now state fileId uid
      = (.error (BusinessException.fileDeleteFailed prismaUnknownArgError.message),
         state) := by
  unfold filesDeleteFile
  rw [softDelete_findUnique_dispatch]
  simp only [Option.getD_some, hfind, howner, ne_eq, not_true_eq_false, if_false,
    softDelete_delete_dispatch, runQueryCall, serviceDeleteLocal,
    localProviderDelete]

/-- C4 witness: the theorem applied to a concrete permission error against
row f1 owned by u1: deletion-failure error surfaced, row and storage
object intact. -/
theorem c4_storage_error_preserves_row_witness :
    filesDeleteFile (some ⟨"EACCES", "permission denied"⟩) 1000 ⟨[rowA], ["p1"]⟩
        "f1" "u1"
      = (.error (BusinessException.fileDeleteFailed prismaUnknownArgError.message),
         ⟨[rowA], ["p1"]⟩) :=
  c4_storage_error_preserves_row ⟨"EACCES", "permission denied"⟩ 1000
    ⟨[rowA], ["p1"]⟩ "f1" "u1" rowA rfl rfl

/-- C5: on an upload with the S3 provider active whose provider call
throws, the local provider is tried exactly once — a success is returned
with storageType local, a failure propagates as-is (still after exactly one
fallback call); with the local provider active, a provider error propagates
with no fallback call at all (the result does not depend on the
local-retry outcome). -/
theorem c5_upload_fallback (e : JsError) (lu : Except JsError String) (key : String) :
    (∀ url, lu = .ok url →
        storageUploadFile .s3 (.error e) lu key
          = ⟨.ok ⟨key, url, .localFs⟩, 1⟩) ∧
    (∀ e2, lu = .error e2 →
        storageUploadFile .s3 (.error e) lu key = ⟨.error e2, 1⟩) ∧
    storageUploadFile .localFs (.error e) lu key = ⟨.error e, 0⟩ := by
  refine ⟨fun url h => ?_, fun e2 h => ?_, rfl⟩ <;> subst h <;> rfl

/-- C5 witness: the fallback theorem applied to a concrete S3 outage with a
working local disk, and to a concrete local-provider failure. -/
theorem c5_upload_fallback_witness :
    storageUploadFile .s3 (.error ⟨"Error", "s3 down"⟩) (.ok "/uploads/k") "k"
        = ⟨.ok ⟨"k", "/uploads/k", .localFs⟩, 1⟩ ∧
    storageUploadFile .localFs (.error ⟨"Error", "disk full"⟩) (.ok "/uploads/k") "k"
        = ⟨.error ⟨"Error", "disk full"⟩, 0⟩ :=
  ⟨(c5_upload_fallback ⟨"Error", "s3 down"⟩ (.ok "/uploads/k") "k").1 "/uploads/k" rfl,
   (c5_upload_fallback ⟨"Error", "disk full"⟩ (.ok "/uploads/k") "k").2.2⟩

/-- C6 counterexample: the claim says genuine permission or network
failures of the S3 delete propagate as thrown errors. At an explicit
AccessDenied outcome the provider's catch-all converts the failure into an
ordinary false return — nothing propagates. -/
theorem c6_access_denied_not_propagated :
    s3DeleteFile (.error ⟨"AccessDenied", "Access Denied"⟩) = .ok false :=
  rfl

/-- C6 (amended): `S3StorageProvider.deleteFile` never throws: a
successful delete command yields true, and every thrown error — a
not-found condition and genuine permission or network failures alike — is
caught and converted into a false return. -/
theorem c6_s3_delete_never_propagates :
    s3DeleteFile (.ok ()) = .ok true ∧
    (∀ e : JsError, s3DeleteFile (.error e) = .ok false) ∧
    (∀ send : Except JsError Unit, ∃ b, s3DeleteFile send = .ok b) := by
  refine ⟨rfl, fun e => rfl, fun send => ?_⟩
  cases send with
  | ok u => exact ⟨true, rfl⟩
  | error e => exact ⟨false, rfl⟩

/-- C7: a failure of the quota aggregation itself lets the check pass (the
catch only logs non-business errors), the check rejects exactly when the
caller's current active total plus the new size exceeds the quota, and an
upload whose only infrastructure anomaly is the aggregation failure runs
to completion. -/
theorem c7_quota_check_best_effort :
    (∀ (e : JsError) (db : FileTable) (uid : String) (sz : Nat),
        checkUserStorageQuota (some e) db uid sz = .ok ()) ∧
    (∀ (db : FileTable) (uid : String) (sz : Nat),
        (∃ er, checkUserStorageQuota none db uid sz = .error er) ↔
          userActiveBytes db uid + sz > MAX_STORAGE_QUOTA) ∧
    (∀ (env : UploadEnv) (state : SysState) (file : MulterFile) (uid : String)
        (e : JsError),
        validateFile file = .ok () →
        env.aggregateFailure = some e →
        env.storageFailure = none →
        env.createFailure = none →
        ∃ rec, (filesUploadFile env state file uid).1 = .ok rec) := by
  refine ⟨fun e db uid sz => rfl, fun db uid sz => ?_, ?_⟩
  · have hred : checkUserStorageQuota none db uid sz
        = if userActiveBytes db uid + sz > MAX_STORAGE_QUOTA then
            .error (BusinessException.fileUploadFailed "Storage quota exceeded")
          else .ok () := rfl
    rw [hred]
    split
    next h => exact ⟨fun _ => h, fun _ => ⟨_, rfl⟩⟩
    next h => exact ⟨fun hex => absurd hex (by simp), fun hgt => absurd hgt h⟩
  · intro env state file uid e hval hagg hsto hcre
    unfold filesUploadFile
    rw [hval, hagg, hsto, hcre]
    exact ⟨_, rfl⟩

/-- C7 witness: a concrete upload of notes.txt whose quota aggregation
throws still succeeds. -/
theorem c7_quota_check_best_effort_witness :
    ∃ rec,
      (filesUploadFile
          { clock := ⟨1700000000000, 2023, 11⟩, random := 7,
            aggregateFailure := some ⟨"Error", "aggregation down"⟩ }
          ⟨[], []⟩ ⟨"notes.txt", "text/plain", 10⟩ "u1").1 = .ok rec :=
  c7_quota_check_best_effort.2.2
    { clock := ⟨1700000000000, 2023, 11⟩, random := 7,
      aggregateFailure := some ⟨"Error", "aggregation down"⟩ }
    ⟨[], []⟩ ⟨"notes.txt", "text/plain", 10⟩ "u1" ⟨"Error", "aggregation down"⟩
    rfl rfl rfl rfl

/-- Characters that can appear in the sanitized filename: the class kept
by the sanitizer plus the replacement underscore. -/
def isSanitizedChar (c : Char) : Bool := isAllowedFilenameChar c || c = '_'

/-- C9: storage-key derivation is a pure function of the clock instant,
the random draw, the user id and the original name (identical inputs give
identical keys), the key is exactly the
users/id/year/month/timestamp-random-sanitizedName-ext format, the
original name's (lowercased) extension is a suffix of the key, and the
sanitized base consists only of kept-or-underscore characters and is at
most 50 characters long. -/
theorem c9_storage_key_shape (c : Clock) (random : Nat) (uid name : String) :
    (∀ (c2 : Clock) (r2 : Nat) (u2 n2 : String),
        c = c2 → random = r2 → uid = u2 → name = n2 →
        generateStorageKey c random uid name = generateStorageKey c2 r2 u2 n2) ∧
    generateStorageKey c random uid name
      = "users/" ++ uid ++ "/" ++ toString c.year ++ "/" ++ padStart2 (toString c.month)
        ++ "/" ++ toString c.nowMs ++ "-" ++ toString random ++ "-"
        ++ jsSubstring50 (sanitizeFilename name) ++ getFileExtension name ∧
    (∃ p, generateStorageKey c random uid name = p ++ getFileExtension name) ∧
    (jsSubstring50 (sanitizeFilename name)).data.all isSanitizedChar = true ∧
    (jsSubstring50 (sanitizeFilename name)).length ≤ 50 := by
  refine ⟨?_, rfl, ⟨_, rfl⟩, ?_, ?_⟩
  · intro c2 r2 u2 n2 hc hr hu hn
    subst hc; subst hr; subst hu; subst hn; rfl
  · show ((name.data.map fun ch => if isAllowedFilenameChar ch then ch else '_').take
        50).all isSanitizedChar = true
    rw [List.all_eq_true]
    intro x hx
    obtain ⟨ch, _hch, rfl⟩ := List.mem_map.mp (List.mem_of_mem_take hx)
    by_cases h : isAllowedFilenameChar ch
    · simp [isSanitizedChar, h]
    · simp [isSanitizedChar, h]
  · show ((name.data.map fun ch => if isAllowedFilenameChar ch then ch else '_').take
        50).length ≤ 50
    rw [List.length_take]
    exact min_le_left _ _

/-- C9 witness: the shape theorem's determinism clause applied at a
concrete instant and filename. -/
theorem c9_storage_key_shape_witness :
    generateStorageKey ⟨1700000000000, 2023, 11⟩ 42 "u1" "notes.txt"
      = generateStorageKey ⟨1700000000000, 2023, 11⟩ 42 "u1" "notes.txt" :=
  (c9_storage_key_shape ⟨1700000000000, 2023, 11⟩ 42 "u1" "notes.txt").1
    ⟨1700000000000, 2023, 11⟩ 42 "u1" "notes.txt" rfl rfl rfl rfl

/-- The `where` object `getUserFiles` builds never carries a `deletedAt`
key of its own. -/
theorem buildWhere_deletedAt_none (uid : String) (ft : Option String) :
    (buildGetUserFilesWhere uid ft).deletedAt = none := by
  cases ft with
  | none => rfl
  | some s =>
    unfold buildGetUserFilesWhere
    repeat' split
    all_goals rfl

/-- An unrecognized (lowercased) type string falls through every case of
the switch, leaving only the caller's id in the `where` object. -/
theorem buildWhere_unrecognized (uid ft : String)
    (h1 : strToLower ft ≠ "video") (h2 : strToLower ft ≠ "image")
    (h3 : strToLower ft ≠ "document") (h4 : strToLower ft ≠ "archive") :
    buildGetUserFilesWhere uid (some ft) = { userId := some uid } := by
  unfold buildGetUserFilesWhere
  simp [h1, h2, h3, h4]

/-- `createdAtDesc` is transitive. -/
theorem createdAtDesc_trans :
    ∀ a b c : FileRecord, createdAtDesc a b → createdAtDesc b c → createdAtDesc a c := by
  intro a b c hab hbc
  simp only [createdAtDesc, Nat.ble_eq] at *
  omega

/-- `createdAtDesc` is total. -/
theorem createdAtDesc_total :
    ∀ a b : FileRecord, createdAtDesc a b || createdAtDesc b a := by
  intro a b
  simp only [createdAtDesc, Nat.ble_eq, Bool.or_eq_true]
  omega

/-- C10: a `getUserFiles` call whose type filter lowercases to none of
video/image/document/archive behaves exactly like the unfiltered call: the
result is a permutation of the caller's active rows (so no error and no
artificially empty answer) ordered by `createdAt` descending. -/
theorem c10_unrecognized_type_filter_ignored (now : Nat) (db : FileTable)
    (uid ft : String)
    (h1 : strToLower ft ≠ "video") (h2 : strToLower ft ≠ "image")
    (h3 : strToLower ft ≠ "document") (h4 : strToLower ft ≠ "archive") :
    filesGetUserFiles now db uid (some ft) = filesGetUserFiles now db uid none ∧
    (filesGetUserFiles now db uid (some ft)).Perm
      (db.filter fun r => r.userId == uid && r.deletedAt == none) ∧
    List.Pairwise (fun a b : FileRecord => b.createdAt ≤ a.createdAt)
      (filesGetUserFiles now db uid (some ft)) := by
  have hb : buildGetUserFilesWhere uid (some ft) = { userId := some uid } :=
    buildWhere_unrecognized uid ft h1 h2 h3 h4
  have heq : filesGetUserFiles now db uid (some ft) = filesGetUserFiles now db uid none := by
    unfold filesGetUserFiles
    rw [hb]
    rfl
  refine ⟨heq, ?_, ?_⟩
  · have hform : filesGetUserFiles now db uid (some ft)
        = (runFindMany { userId := some uid, deletedAt := some none } db).mergeSort
            createdAtDesc := by
      unfold filesGetUserFiles
      rw [hb, softDelete_findMany_dispatch now { userId := some uid } rfl]
      rfl
    rw [hform]
    refine (List.mergeSort_perm _ _).trans ?_
    unfold runFindMany
    have hfc : ∀ r ∈ db,
        fileWhereMatches { userId := some uid, deletedAt := some none } r
          = (r.userId == uid && r.deletedAt == none) := by
      intro r _
      simp [fileWhereMatches]
    rw [List.filter_congr hfc]
  · have hform : filesGetUserFiles now db uid (some ft)
        = (runFindMany { userId := some uid, deletedAt := some none } db).mergeSort
            createdAtDesc := by
      unfold filesGetUserFiles
      rw [hb, softDelete_findMany_dispatch now { userId := some uid } rfl]
      rfl
    rw [hform]
    have hs := List.sorted_mergeSort createdAtDesc_trans createdAtDesc_total
      (runFindMany { userId := some uid, deletedAt := some none } db)
    refine hs.imp ?_
    intro a b h
    simpa [createdAtDesc, Nat.ble_eq] using h

/-- C10 witness: an AUDIO filter (unrecognized) over a two-row table
returns the active row exactly as the unfiltered call would. -/
theorem c10_unrecognized_type_filter_ignored_witness :
    filesGetUserFiles 0 [rowA, rowB] "u1" (some "AUDIO")
        = filesGetUserFiles 0 [rowA, rowB] "u1" none ∧
    (filesGetUserFiles 0 [rowA, rowB] "u1" (some "AUDIO")).Perm
      ([rowA, rowB].filter fun r => r.userId == "u1" && r.deletedAt == none) ∧
    List.Pairwise (fun a b : FileRecord => b.createdAt ≤ a.createdAt)
      (filesGetUserFiles 0 [rowA, rowB] "u1" (some "AUDIO")) :=
  c10_unrecognized_type_filter_ignored 0 [rowA, rowB] "u1" "AUDIO"
    (by decide) (by decide) (by decide) (by decide)

/-- C8: deleting an existing active file owned by someone else fails with
the Forbidden fileNotOwner error, raised before the storage or database
branch runs (for any storage behavior the whole state comes back
unchanged), and the file stays retrievable by its actual owner from the
post-call state. -/
theorem c8_foreign_delete_forbidden (fsFail : Option JsError) (now : Nat)
    (state : SysState) (fileId callerId : String) (file : FileRecord)
    (hfind : runFindUnique { id := some fileId, deletedAt := some none } state.db
      = some file)
    (howner : file.userId ≠ callerId) :
    filesDeleteFile fsFail now state fileId callerId
      = (.error (BusinessException.fileNotOwner fileId callerId), state) ∧
    filesGetFileById now (filesDeleteFile fsFail now state fileId callerId).2 fileId
        file.userId = .ok file := by
  have h1 : filesDeleteFile fsFail now state fileId callerId
      = (.error (BusinessException.fileNotOwner fileId callerId), state) := by
    unfold filesDeleteFile
    rw [softDelete_findUnique_dispatch]
    simp only [Option.getD_some, hfind, howner, ne_eq, not_false_eq_true, if_true]
  refine ⟨h1, ?_⟩
  rw [h1]
  unfold filesGetFileById
  rw [softDelete_findUnique_dispatch]
  simp only [Option.getD_some, hfind, ne_eq, not_true_eq_false, if_false]

/-- C8 witness: u2 attempting to delete u1's active file f1 is rejected
with the state intact and the row still readable by u1. -/
theorem c8_foreign_delete_forbidden_witness :
    filesDeleteFile none 1000 ⟨[rowA], ["p1"]⟩ "f1" "u2"
      = (.error (BusinessException.fileNotOwner "f1" "u2"), ⟨[rowA], ["p1"]⟩) ∧
    filesGetFileById 1000 (filesDeleteFile none 1000 ⟨[rowA], ["p1"]⟩ "f1" "u2").2
        "f1" "u1" = .ok rowA :=
  c8_foreign_delete_forbidden none 1000 ⟨[rowA], ["p1"]⟩ "f1" "u2" rowA rfl
    (by decide)

end DropboxApp
